import Mathlib

/-!
Shallow embedding of the swap/quote service in `app.js` (a single-file
Express service over ethers.js).  Pure helpers of the source are translated
into Lean functions; the on-chain collaborators (JSON-RPC provider, ERC-20
token contracts, the quoter and router contracts, wallet construction) are
modelled as an explicit `Chain` record of oracles, and each request handler
is a function from the request and the chain to the list of network calls it
issues together with the HTTP status and response body.

JavaScript `number` constants appearing in the slippage policy (`0.005`,
`0.03`) are modelled as exact rationals.  For every value the slippage
function can return (`0.005`, `Math.min(0.005*2, 0.03) = 0.01`, `0.03`) the
IEEE-754 double evaluation of `100 - slippage * 100` performed by the source
yields exactly `99.5`, `99` and `97` — the same values exact rational
arithmetic yields — so the rational model is faithful on every reachable
input.
-/

deriving instance DecidableEq for Except

/-- Model of JavaScript `String.prototype.toLowerCase` for the ASCII strings
this service manipulates (token addresses, aliases and symbols): lowercase
every character.  Implemented structurally over the character list so that
it reduces in the kernel. -/
def jsToLower (s : String) : String := ⟨s.data.map Char.toLower⟩

/-- Auxiliary for the model of JavaScript `value.split(".")`: split a
character list at every dot. -/
def splitOnDot : List Char → List (List Char)
  | [] => [[]]
  | c :: rest =>
    if c = '.' then [] :: splitOnDot rest
    else
      match splitOnDot rest with
      | [] => [[c]]
      | h :: t => (c :: h) :: t

/-- Model of JavaScript `value.split(".")` on strings. -/
def jsSplitDot (s : String) : List String := (splitOnDot s.data).map String.mk

/-- Numeric value of a decimal digit string (the source hands such strings to
`BigNumber.from`, which accepts leading zeros). -/
def digitsToNat (s : String) : Nat := s.data.foldl (fun n c => n * 10 + (c.toNat - 48)) 0

/-- Drop the trailing `'0'` characters of a string (the trimming loop of
ethers `parseFixed` / the regex of `formatFixed`). -/
def dropTrailingZeros (s : String) : String :=
  ⟨(s.data.reverse.dropWhile (fun c => c = '0')).reverse⟩

/-- Left-pad a string with `'0'` up to length `n` (the padding loop of
ethers `formatFixed`). -/
def padLeftZeros (s : String) (n : Nat) : String :=
  ⟨List.replicate (n - s.data.length) '0' ++ s.data⟩

/-- JavaScript falsiness of an optional string (`!x` in the source is true
for a missing value and for the empty string). -/
def jsFalsy : Option String → Bool
  | none => true
  | some s => decide (s = "")

/-- WETH mainnet address (`WETH_ADDRESS` in the source). -/
def WETH_ADDRESS : String := "0xC02aaA39b223FE8D0A0e5C4F27eAD9083C756Cc2"

/-- Uniswap V3 router address (`UNISWAP_V3_ROUTER_ADDRESS` in the source). -/
def UNISWAP_V3_ROUTER_ADDRESS : String := "0xE592427A0AEce92De3Edee1F18E0157C05861564"

/-- Fee tiers in ascending order (`feeTiers` in the source). -/
def feeTiers : List Nat := [500, 3000, 10000]

/-- Embedding of `toAddress(tokenStr)`: a falsy argument throws
`"Invalid token string"`; `"eth"` (case-insensitively) maps to the WETH
address; any other string is passed through unchanged. -/
def toAddress (tokenStr : Option String) : Except String String :=
  match tokenStr with
  | none => .error "Invalid token string"
  | some s =>
    if s = "" then .error "Invalid token string"
    else if jsToLower s = "eth" then .ok WETH_ADDRESS
    else .ok s

/-- Embedding of ethers v5 `parseUnits(value, decimals)` (`parseFixed`) for
the non-negative decimal strings the service accepts as amounts (a leading
minus sign, which ethers would accept, is outside the spec data model of
non-negative `AmountSpec` quantities and is treated as invalid here):
reject a string that is empty or holds a character other than a digit or a
dot; split on the dot; trim the trailing zeros of the fractional part;
reject a fractional part longer than `decimals`; the value is
`whole * 10 ^ decimals + fraction * 10 ^ (decimals - fraction.length)`. -/
def parseFixed (value : String) (decimals : Nat) : Except String Nat :=
  if value = "" ∨ ¬ (value.data.all (fun c => c.isDigit || c = '.')) then
    .error "invalid decimal value"
  else
    match jsSplitDot value with
    | [w] => .ok (digitsToNat w * 10 ^ decimals)
    | [w, f] =>
      let fr := dropTrailingZeros f
      if decimals < fr.data.length then .error "fractional component exceeds decimals"
      else .ok (digitsToNat w * 10 ^ decimals + digitsToNat fr * 10 ^ (decimals - fr.data.length))
    | _ => .error "too many decimal points"

/-- Embedding of ethers v5 `formatUnits(value, decimals)` (`formatFixed`)
for non-negative values: the fractional part is `value mod 10 ^ decimals`
left-padded with zeros to `decimals` digits, then stripped of trailing
zeros but kept non-empty (so a whole-number value formats with a trailing
`".0"`); with zero decimals the whole part alone is returned. -/
def formatUnits (value : Nat) (decimals : Nat) : String :=
  if decimals = 0 then toString value
  else
    let fr := dropTrailingZeros (padLeftZeros (toString (value % 10 ^ decimals)) decimals)
    let fr := if fr = "" then "0" else fr
    toString (value / 10 ^ decimals) ++ "." ++ fr

/-- On-chain swap-call payload (`params` built in the `/swap` handler). -/
structure SwapParams where
  tokenIn : String
  tokenOut : String
  fee : Nat
  recipient : String
  deadline : Nat
  amountIn : Nat
  amountOutMinimum : Int
  sqrtPriceLimitX96 : Nat
deriving DecidableEq

/-- One network round trip issued by the pipeline.  The handlers return the
list of calls they perform, in order, so that claims about calls never being
attempted can be stated. -/
inductive NetCall where
  | decimalsCall (token : String)
  | balanceCall (token owner : String)
  | allowanceCall (token owner spender : String)
  | approveCall (token spender : String)
  | quoteCall (tokenIn tokenOut : String) (fee : Nat) (amountIn : Nat)
  | submitCall (params : SwapParams)
deriving DecidableEq

/-- Response body of a handler: an error message, a transaction hash, or a
quote payload. -/
inductive Resp where
  | err (msg : String)
  | tx (hash : String)
  | quote (feeTier : Nat) (amountOut : String) (amountOutRaw : String)
deriving DecidableEq

/-- The external collaborators of one request: wallet construction from the
credential (which can throw locally), and the outcomes of every on-chain
interaction.  Each field models one kind of call the source makes through
ethers. -/
structure Chain where
  /-- `new ethers.Wallet(key, provider)`: the signer address, or a thrown
  error for a malformed key. -/
  walletAddr : String → Except String String
  /-- `decimals()` on an ERC-20 token contract. -/
  decimals : String → Except String Nat
  /-- `balanceOf(owner)` on the input token contract. -/
  balanceOf : String → String → Except String Nat
  /-- `allowance(owner, spender)` on the input token contract. -/
  allowance : String → String → String → Except String Nat
  /-- `approve(spender, MaxUint256)` followed by `wait()`. -/
  approve : String → String → Except String Unit
  /-- `quoter.callStatic.quoteExactInputSingle(tokenIn, tokenOut, fee,
  amountIn, sqrtPriceLimitX96)`: `some amountOut` on success, `none` for a
  reverted call, network error or any exception. -/
  quote : String → String → Nat → Nat → Nat → Option Nat
  /-- `router.exactInputSingle(params)` followed by `wait()`: the mined
  transaction hash, or a thrown error. -/
  submit : SwapParams → Except String String
  /-- `Math.floor(Date.now() / 1000)` at the time the swap params are
  built. -/
  now : Nat

/-- Embedding of `getTokenDecimals(tokenAddress, provider)`: the fixed
constant 18 for the WETH address (case-insensitively, with no network
call), otherwise a `decimals()` call on the token contract.  Returns the
calls issued together with the result. -/
def getTokenDecimals (tokenAddress : String) (ch : Chain) : List NetCall × Except String Nat :=
  if jsToLower tokenAddress = jsToLower WETH_ADDRESS then ([], .ok 18)
  else ([NetCall.decimalsCall tokenAddress], ch.decimals tokenAddress)

/-- Embedding of `parseAmountIn(amountInString, tokenInString, provider)`:
a falsy amount throws `"Missing amountIn"`; otherwise resolve the token,
obtain its decimals and convert the decimal string with `parseUnits`. -/
def parseAmountIn (amountInString : Option String) (tokenInString : String) (ch : Chain) :
    List NetCall × Except String Nat :=
  match amountInString with
  | none => ([], .error "Missing amountIn")
  | some amt =>
    if amt = "" then ([], .error "Missing amountIn")
    else
      match toAddress (some tokenInString) with
      | .error e => ([], .error e)
      | .ok tokenAddress =>
        match getTokenDecimals tokenAddress ch with
        | (tr, .error e) => (tr, .error e)
        | (tr, .ok decimals) => (tr, parseFixed amt decimals)

/-- Loop body of `getBestQuote`: try each fee tier in order against the
quoting oracle; return the tiers attempted (in order) and either the first
successful `(fee, amountOut)` or the `"No valid liquidity pool found."`
error once every tier failed. -/
def getBestQuoteAux (tiers : List Nat) (oracle : Nat → Option Nat) :
    List Nat × Except String (Nat × Nat) :=
  match tiers with
  | [] => ([], .error "No valid liquidity pool found.")
  | fee :: rest =>
    match oracle fee with
    | some amountOut => ([fee], .ok (fee, amountOut))
    | none => (fee :: (getBestQuoteAux rest oracle).1, (getBestQuoteAux rest oracle).2)

/-- Embedding of `getBestQuote(provider, tokenIn, tokenOut, amountInWei)`,
abstracted over the quoting oracle already applied to the fixed
`(tokenIn, tokenOut, amountIn, 0)` arguments. -/
def getBestQuote (oracle : Nat → Option Nat) : List Nat × Except String (Nat × Nat) :=
  getBestQuoteAux feeTiers oracle

/-- Embedding of `calculateSlippage(tokenIn, tokenOut)`: 0.5% when tokenIn
is (case-insensitively) the WETH address and tokenOut lowercases to
`"usdt"`; `min(0.005 * 2, 0.03)` when tokenIn or tokenOut is the WETH
address; 3% otherwise.  A pure function of its two string arguments. -/
def calculateSlippage (tokenIn tokenOut : String) : ℚ :=
  if jsToLower tokenIn = jsToLower WETH_ADDRESS ∧ jsToLower tokenOut = "usdt" then
    5 / 1000
  else if jsToLower tokenIn = jsToLower WETH_ADDRESS ∨ jsToLower tokenOut = jsToLower WETH_ADDRESS then
    min (5 / 1000 * 2) (3 / 100)
  else
    3 / 100

/-- Embedding of `amountOut.mul(100 - (dynamicSlippage * 100)).div(100)`:
ethers `BigNumber.mul` converts its JavaScript-number argument with
`BigNumber.from`, which throws an `"underflow"` fault when the number is
not an integer; `BigNumber.div` truncates toward zero. -/
def amountOutMinimum (amountOut : Nat) (slippage : ℚ) : Except String Int :=
  let m : ℚ := 100 - slippage * 100
  if m.den = 1 then .ok (Int.tdiv (amountOut * m.num) 100) else .error "underflow"

/-- Request body plus the `Authorization` header of a `POST /swap` request
(each field `none` when absent; JavaScript treats the empty string the same
as an absent value). -/
structure SwapReq where
  authorization : Option String
  amountIn : Option String
  tokenIn : Option String
  tokenOut : Option String

/-- Request body of a `POST /quote` request. -/
structure QuoteReq where
  amountIn : Option String
  tokenIn : Option String
  tokenOut : Option String

/-- Tail of the `/swap` handler after the allowance step: quote the best
fee tier, derive the slippage bound and the minimum output, build the swap
params with a `now + 300` deadline and zero price limit, and submit. -/
def swapQuotePhase (ch : Chain) (calls : List NetCall)
    (tokenInAddress tokenOutAddress walletAddr : String) (amountInWei : Nat) :
    List NetCall × Nat × Resp :=
  match getBestQuote (fun fee => ch.quote tokenInAddress tokenOutAddress fee amountInWei 0) with
  | (fees, qres) =>
    let calls := calls ++ fees.map (fun f => NetCall.quoteCall tokenInAddress tokenOutAddress f amountInWei)
    match qres with
    | .error e => (calls, 500, .err e)
    | .ok (fee, amountOut) =>
      match amountOutMinimum amountOut (calculateSlippage tokenInAddress tokenOutAddress) with
      | .error e => (calls, 500, .err e)
      | .ok minOut =>
        let params : SwapParams :=
          { tokenIn := tokenInAddress
            tokenOut := tokenOutAddress
            fee := fee
            recipient := walletAddr
            deadline := ch.now + 300
            amountIn := amountInWei
            amountOutMinimum := minOut
            sqrtPriceLimitX96 := 0 }
        match ch.submit params with
        | .error e => (calls ++ [NetCall.submitCall params], 500, .err e)
        | .ok h => (calls ++ [NetCall.submitCall params], 200, .tx h)

/-- Embedding of the `POST /swap` handler: reject a falsy authorization
header with 401 and a falsy body field with 400 before anything else; then,
inside the try block, build the wallet, resolve both tokens, normalize the
amount, check the balance (400 on shortfall), check the allowance (issuing
an unbounded approval when it is short), quote, derive the minimum output
and submit; every thrown error is caught and answered with 500. -/
def swapHandler (req : SwapReq) (ch : Chain) : List NetCall × Nat × Resp :=
  if jsFalsy req.authorization then
    ([], 401, .err "Private key required in Authorization header")
  else if jsFalsy req.amountIn || jsFalsy req.tokenIn || jsFalsy req.tokenOut then
    ([], 400, .err "Missing required parameters in request body")
  else
    match ch.walletAddr (req.authorization.getD "") with
    | .error e => ([], 500, .err e)
    | .ok walletAddr =>
      match toAddress req.tokenIn with
      | .error e => ([], 500, .err e)
      | .ok tokenInAddress =>
        match toAddress req.tokenOut with
        | .error e => ([], 500, .err e)
        | .ok tokenOutAddress =>
          match parseAmountIn req.amountIn (req.tokenIn.getD "") ch with
          | (tr, .error e) => (tr, 500, .err e)
          | (tr, .ok amountInWei) =>
            match ch.balanceOf tokenInAddress walletAddr with
            | .error e => (tr ++ [NetCall.balanceCall tokenInAddress walletAddr], 500, .err e)
            | .ok balance =>
              let calls := tr ++ [NetCall.balanceCall tokenInAddress walletAddr]
              if balance < amountInWei then
                (calls, 400, .err "Insufficient token balance.")
              else
                match ch.allowance tokenInAddress walletAddr UNISWAP_V3_ROUTER_ADDRESS with
                | .error e => (calls ++ [NetCall.allowanceCall tokenInAddress walletAddr UNISWAP_V3_ROUTER_ADDRESS], 500, .err e)
                | .ok allowance =>
                  let calls := calls ++ [NetCall.allowanceCall tokenInAddress walletAddr UNISWAP_V3_ROUTER_ADDRESS]
                  if allowance < amountInWei then
                    match ch.approve tokenInAddress UNISWAP_V3_ROUTER_ADDRESS with
                    | .error e => (calls ++ [NetCall.approveCall tokenInAddress UNISWAP_V3_ROUTER_ADDRESS], 500, .err e)
                    | .ok _ =>
                      swapQuotePhase ch (calls ++ [NetCall.approveCall tokenInAddress UNISWAP_V3_ROUTER_ADDRESS])
                        tokenInAddress tokenOutAddress walletAddr amountInWei
                  else
                    swapQuotePhase ch calls tokenInAddress tokenOutAddress walletAddr amountInWei

/-- Embedding of the `POST /quote` handler: reject a falsy body field with
400; then resolve both tokens, normalize the amount, quote the best fee
tier, fetch the output token decimals and answer 200 with the fee tier, the
formatted output amount and the raw output amount; every thrown error is
caught and answered with 500. -/
def quoteHandler (req : QuoteReq) (ch : Chain) : List NetCall × Nat × Resp :=
  if jsFalsy req.amountIn || jsFalsy req.tokenIn || jsFalsy req.tokenOut then
    ([], 400, .err "Missing required parameters in request body")
  else
    match toAddress req.tokenIn with
    | .error e => ([], 500, .err e)
    | .ok tokenInAddress =>
      match toAddress req.tokenOut with
      | .error e => ([], 500, .err e)
      | .ok tokenOutAddress =>
        match parseAmountIn req.amountIn (req.tokenIn.getD "") ch with
        | (tr, .error e) => (tr, 500, .err e)
        | (tr, .ok amountInWei) =>
          match getBestQuote (fun fee => ch.quote tokenInAddress tokenOutAddress fee amountInWei 0) with
          | (fees, qres) =>
            let calls := tr ++ fees.map (fun f => NetCall.quoteCall tokenInAddress tokenOutAddress f amountInWei)
            match qres with
            | .error e => (calls, 500, .err e)
            | .ok (fee, amountOut) =>
              match getTokenDecimals tokenOutAddress ch with
              | (tr2, .error e) => (calls ++ tr2, 500, .err e)
              | (tr2, .ok outDecimals) =>
                (calls ++ tr2, 200, .quote fee (formatUnits amountOut outDecimals) (toString amountOut))

example : toAddress (some "eth") = .ok WETH_ADDRESS := rfl
example : toAddress (some "ETH") = .ok WETH_ADDRESS := rfl
example : toAddress (some "0xAbC") = .ok "0xAbC" := rfl
example : toAddress (some "") = .error "Invalid token string" := rfl
example : jsSplitDot "0.5" = ["0", "5"] := rfl
example : jsSplitDot "10" = ["10"] := rfl
example : digitsToNat "507" = 507 := rfl
example : parseFixed "1" 18 = .ok (10 ^ 18) := by decide
example : parseFixed "10" 18 = .ok (10 ^ 19) := by decide
example : parseFixed "0.5" 6 = .ok 500000 := by decide
example : parseFixed "1.2345" 2 = .error "fractional component exceeds decimals" := by decide
example : parseFixed "1.2300" 2 = .ok 123 := by decide
example : parseFixed "" 2 = .error "invalid decimal value" := by decide
example : formatUnits 5000000000 8 = "50.0" := by decide
example : formatUnits 1234 2 = "12.34" := by decide
example : formatUnits 1230 2 = "12.3" := by decide
example : formatUnits 5 2 = "0.05" := by decide
example : formatUnits 7 0 = "7" := by decide
example : calculateSlippage WETH_ADDRESS "usdt" = 1 / 200 := by
  unfold calculateSlippage
  rw [if_pos ⟨rfl, by decide⟩]
  norm_num
example : calculateSlippage WETH_ADDRESS "0xAbC" = 1 / 100 := by
  unfold calculateSlippage
  rw [if_neg (by rintro ⟨-, h⟩; exact absurd h (by decide)), if_pos (Or.inl rfl)]
  norm_num
example : calculateSlippage "0xDeF" "0xAbC" = 3 / 100 := by
  unfold calculateSlippage
  rw [if_neg (by rintro ⟨h, -⟩; exact absurd h (by decide)),
    if_neg (by rintro (h | h) <;> exact absurd h (by decide))]
example : amountOutMinimum 1000000 (1 / 200) = .error "underflow" := by
  unfold amountOutMinimum
  rw [if_neg (by norm_num)]
example : amountOutMinimum 1000000 (1 / 100) = .ok 990000 := by
  have hnum : ((100 : ℚ) - 1 / 100 * 100).num = 99 := by norm_num
  unfold amountOutMinimum
  rw [if_pos (by norm_num), hnum]
  decide
example : amountOutMinimum 1000000 (3 / 100) = .ok 970000 := by
  have hnum : ((100 : ℚ) - 3 / 100 * 100).num = 97 := by norm_num
  unfold amountOutMinimum
  rw [if_pos (by norm_num), hnum]
  decide
example : getBestQuote (fun f => if f = 10000 then some 1000000 else none)
    = ([500, 3000, 10000], .ok (10000, 1000000)) := by decide

/-- Chain used by the end-to-end `/quote` scenario of the spec: a mock
oracle that answers only fee tier 3000 with raw output `5000000000`, and an
output token with 8 decimals. -/
def quoteScenarioChain : Chain where
  walletAddr := fun _ => .ok "0xME"
  decimals := fun t => if t = "0xTOKEN" then .ok 8 else .error "no decimals"
  balanceOf := fun _ _ => .ok 0
  allowance := fun _ _ _ => .ok 0
  approve := fun _ _ => .ok ()
  quote := fun _ _ fee _ _ => if fee = 3000 then some 5000000000 else none
  submit := fun _ => .error "no submit"
  now := 0

lemma getBestQuoteAux_allFail (oracle : Nat → Option Nat) :
    ∀ tiers, (∀ f ∈ tiers, oracle f = none) →
      getBestQuoteAux tiers oracle = (tiers, .error "No valid liquidity pool found.") := by
  intro tiers h
  induction tiers with
  | nil => rfl
  | cons fee rest ih =>
    have hfee : oracle fee = none := h fee (by simp)
    have hrest := ih (fun f hf => h f (by simp [hf]))
    simp [getBestQuoteAux, hfee, hrest]

lemma getBestQuoteAux_error_iff (oracle : Nat → Option Nat) :
    ∀ tiers, ((getBestQuoteAux tiers oracle).2 = .error "No valid liquidity pool found." ↔
      ∀ f ∈ tiers, oracle f = none) := by
  intro tiers
  induction tiers with
  | nil => simp [getBestQuoteAux]
  | cons fee rest ih =>
    cases hfee : oracle fee with
    | some a =>
      simp only [getBestQuoteAux, hfee]
      constructor
      · intro h; exact absurd h (by simp)
      · intro h; exact absurd (h fee (by simp)) (by simp [hfee])
    | none =>
      simp only [getBestQuoteAux, hfee]
      rw [ih]
      constructor
      · intro h f hf
        rcases List.mem_cons.mp hf with rfl | hf
        · exact hfee
        · exact h f hf
      · intro h f hf; exact h f (by simp [hf])

lemma getBestQuoteAux_ok (oracle : Nat → Option Nat) (f out : Nat) :
    ∀ tiers, (getBestQuoteAux tiers oracle).2 = .ok (f, out) →
      oracle f = some out
      ∧ (getBestQuoteAux tiers oracle).1
          = tiers.takeWhile (fun g => (oracle g).isNone) ++ [f]
      ∧ ∃ rest, tiers = (getBestQuoteAux tiers oracle).1 ++ rest := by
  intro tiers
  induction tiers with
  | nil => intro h; exact absurd h (by simp [getBestQuoteAux])
  | cons fee rest ih =>
    intro h
    cases hfee : oracle fee with
    | some a =>
      simp only [getBestQuoteAux, hfee] at h ⊢
      obtain ⟨rfl, rfl⟩ : fee = f ∧ a = out := by
        have := Except.ok.inj h
        exact ⟨congrArg Prod.fst this, congrArg Prod.snd this⟩
      refine ⟨hfee, ?_, ⟨rest, rfl⟩⟩
      rw [List.takeWhile_cons_of_neg (by simp [hfee])]
      rfl
    | none =>
      simp only [getBestQuoteAux, hfee] at h ⊢
      obtain ⟨h1, h2, rest', hr⟩ := ih h
      refine ⟨h1, ?_, ⟨rest', ?_⟩⟩
      · rw [List.takeWhile_cons_of_pos (by simp [hfee]), h2]
        rfl
      · rw [List.cons_append]
        exact congrArg (fee :: ·) hr

/-- C2: `getBestQuote` tries the fee tiers in the configured order
`[500, 3000, 10000]`; when every configured tier fails it attempts all of
them and fails with the no-liquidity error, and this error arises exactly
when every tier fails; when it succeeds, the returned tier is the quoted
one, the attempted tiers are exactly the failing prefix of the configured
order followed by the successful tier (so no oracle call is issued for any
later tier), and every earlier tier failed. -/
theorem getBestQuote_first_success_spec (oracle : Nat → Option Nat) :
    feeTiers = [500, 3000, 10000]
    ∧ ((∀ f ∈ feeTiers, oracle f = none) →
        getBestQuote oracle = (feeTiers, .error "No valid liquidity pool found."))
    ∧ (∀ f out, (getBestQuote oracle).2 = .ok (f, out) →
        oracle f = some out
        ∧ (getBestQuote oracle).1
            = feeTiers.takeWhile (fun g => (oracle g).isNone) ++ [f]
        ∧ (∀ g ∈ feeTiers.takeWhile (fun g => (oracle g).isNone), oracle g = none)
        ∧ ∃ rest, feeTiers = (getBestQuote oracle).1 ++ rest)
    ∧ ((getBestQuote oracle).2 = .error "No valid liquidity pool found." ↔
        ∀ f ∈ feeTiers, oracle f = none) := by
  refine ⟨rfl, ?_, ?_, getBestQuoteAux_error_iff oracle feeTiers⟩
  · exact getBestQuoteAux_allFail oracle feeTiers
  · intro f out h
    obtain ⟨h1, h2, h3⟩ := getBestQuoteAux_ok oracle f out feeTiers h
    refine ⟨h1, h2, ?_, h3⟩
    intro g hg
    have := List.mem_takeWhile_imp hg
    simpa [Option.isNone_iff_eq_none] using this

/-- Oracle with no liquidity at any tier, for the C2 witness. -/
def noLiquidityOracle : Nat → Option Nat := fun _ => none

/-- Witness for C2: with an oracle that fails at every tier, `getBestQuote`
attempts all three tiers and fails with the no-liquidity error. -/
theorem getBestQuote_first_success_spec_witness :
    getBestQuote noLiquidityOracle
      = ([500, 3000, 10000], .error "No valid liquidity pool found.") :=
  (getBestQuote_first_success_spec noLiquidityOracle).2.1 (fun _ _ => rfl)

/-- C3: the slippage classification table.  `calculateSlippage` is a pure
function of its two (case-insensitively compared) arguments: 0.5% when
tokenIn is the wrapped-native (WETH) address and tokenOut equals the
designated stable-asset identifier `"usdt"`; `min(1%, 3%) = 1%` when
exactly one of the tokens is the WETH address and the stable case does not
apply; 3% when neither is the WETH address. -/
theorem calculateSlippage_policy (a b : String) :
    (jsToLower a = jsToLower WETH_ADDRESS → jsToLower b = "usdt" →
      calculateSlippage a b = 1 / 200)
    ∧ ((jsToLower a = jsToLower WETH_ADDRESS ↔ ¬ jsToLower b = jsToLower WETH_ADDRESS) →
        ¬(jsToLower a = jsToLower WETH_ADDRESS ∧ jsToLower b = "usdt") →
        calculateSlippage a b = min (1 / 100) (3 / 100))
    ∧ (jsToLower a ≠ jsToLower WETH_ADDRESS → jsToLower b ≠ jsToLower WETH_ADDRESS →
        calculateSlippage a b = 3 / 100) := by
  refine ⟨?_, ?_, ?_⟩
  · intro h1 h2
    unfold calculateSlippage
    rw [if_pos ⟨h1, h2⟩]
    norm_num
  · intro hx hns
    have hor : jsToLower a = jsToLower WETH_ADDRESS ∨ jsToLower b = jsToLower WETH_ADDRESS := by
      rcases em (jsToLower a = jsToLower WETH_ADDRESS) with hA | hA
      · exact Or.inl hA
      · right
        by_contra hB
        exact hA (hx.mpr hB)
    unfold calculateSlippage
    rw [if_neg hns, if_pos hor]
    norm_num [min_def]
  · intro h1 h2
    unfold calculateSlippage
    rw [if_neg (fun h => h1 h.1), if_neg (by rintro (h | h); exacts [h1 h, h2 h])]

/-- Witness for C3: a WETH-to-USDT pair (with mixed-case identifiers) is
classified at the 0.5% bound. -/
theorem calculateSlippage_policy_witness :
    calculateSlippage WETH_ADDRESS "USDT" = 1 / 200 :=
  (calculateSlippage_policy WETH_ADDRESS "USDT").1 rfl (by decide)

/-- C10: when both tokens resolve to the WETH address the middle branch of
`calculateSlippage` fires (its condition is a disjunction), so the result
is the 1% wrapped-native bound and not the 3% ceiling — a case the spec
table does not cover. -/
theorem calculateSlippage_both_wrapped (a b : String)
    (ha : jsToLower a = jsToLower WETH_ADDRESS)
    (hb : jsToLower b = jsToLower WETH_ADDRESS) :
    calculateSlippage a b = 1 / 100 ∧ calculateSlippage a b ≠ 3 / 100 := by
  have hstable : ¬(jsToLower a = jsToLower WETH_ADDRESS ∧ jsToLower b = "usdt") := by
    rintro ⟨-, h⟩
    rw [hb] at h
    exact absurd h (by decide)
  unfold calculateSlippage
  rw [if_neg hstable, if_pos (Or.inl ha)]
  constructor
  · norm_num [min_def]
  · norm_num [min_def]

/-- Witness for C10: the literal WETH address on both sides yields 1%. -/
theorem calculateSlippage_both_wrapped_witness :
    calculateSlippage WETH_ADDRESS WETH_ADDRESS = 1 / 100 :=
  (calculateSlippage_both_wrapped WETH_ADDRESS WETH_ADDRESS rfl rfl).1

lemma calculateSlippage_eq_base_iff (x y : String) :
    calculateSlippage x y = 1 / 200 ↔
      (jsToLower x = jsToLower WETH_ADDRESS ∧ jsToLower y = "usdt") := by
  unfold calculateSlippage
  by_cases h1 : jsToLower x = jsToLower WETH_ADDRESS ∧ jsToLower y = "usdt"
  · rw [if_pos h1]
    simp only [h1, and_self, iff_true]
    norm_num
  · rw [if_neg h1]
    by_cases h2 : jsToLower x = jsToLower WETH_ADDRESS ∨ jsToLower y = jsToLower WETH_ADDRESS
    · rw [if_pos h2]
      constructor
      · intro hval
        exact absurd hval (by norm_num [min_def])
      · intro hc; exact absurd hc h1
    · rw [if_neg h2]
      constructor
      · intro hval
        exact absurd hval (by norm_num)
      · intro hc; exact absurd hc h1

lemma string_data_append (a b : String) : (a ++ b).data = a.data ++ b.data := by
  cases a; cases b; rfl

lemma jsToLower_0x_ne_usdt (rest : String) : jsToLower ("0x" ++ rest) ≠ "usdt" := by
  intro h
  have hd : (("0x" ++ rest).data).map Char.toLower = "usdt".data := congrArg String.data h
  rw [string_data_append] at hd
  have : ('0' :: 'x' :: rest.data).map Char.toLower = "usdt".data := hd
  rw [List.map_cons] at this
  have h0 : Char.toLower '0' = 'u' := (List.cons.inj this).1
  exact absurd h0 (by decide)

/-- C9: the stable-asset branch of the slippage classifier compares the
token against the literal identifier `"usdt"`, not a resolved address.
Given the resolution the swap path applies to the user-supplied tokenOut,
the 0.5% bound is returned precisely when the user-supplied tokenOut
lowercases to `"usdt"` (which `toAddress` passes through unchanged) and the
in-token is the WETH address; it is never returned when tokenOut is the
native alias `"eth"` or an address-form string starting with `"0x"`. -/
theorem calculateSlippage_stable_branch_spec (aIn tokenOut aOut : String)
    (hOut : toAddress (some tokenOut) = .ok aOut) :
    (calculateSlippage aIn aOut = 1 / 200 ↔
      (jsToLower aIn = jsToLower WETH_ADDRESS ∧ jsToLower tokenOut = "usdt"))
    ∧ (jsToLower tokenOut = "eth" → calculateSlippage aIn aOut ≠ 1 / 200)
    ∧ ((∃ rest, tokenOut = "0x" ++ rest) → calculateSlippage aIn aOut ≠ 1 / 200) := by
  have hbase := calculateSlippage_eq_base_iff aIn aOut
  by_cases heth : jsToLower tokenOut = "eth"
  · have haOut : aOut = WETH_ADDRESS := by
      have hne : tokenOut ≠ "" := by
        rintro rfl
        exact absurd heth (by decide)
      rw [toAddress, if_neg hne, if_pos heth] at hOut
      exact (Except.ok.inj hOut).symm
    subst haOut
    have husdt : jsToLower WETH_ADDRESS ≠ "usdt" := by decide
    refine ⟨?_, fun _ h => ?_, fun _ h => ?_⟩
    · rw [hbase]
      constructor
      · rintro ⟨-, h⟩; exact absurd h husdt
      · rintro ⟨-, h⟩
        rw [heth] at h
        exact absurd h (by decide)
    · exact husdt (hbase.mp h).2
    · exact husdt (hbase.mp h).2
  · have haOut : aOut = tokenOut := by
      have hne : tokenOut ≠ "" := by
        rintro rfl
        rw [show toAddress (some "") = .error "Invalid token string" from rfl] at hOut
        exact Except.noConfusion hOut
      rw [toAddress, if_neg hne, if_neg heth] at hOut
      exact (Except.ok.inj hOut).symm
    subst haOut
    refine ⟨hbase, fun h => absurd h heth, ?_⟩
    rintro ⟨rest, rfl⟩ h
    exact jsToLower_0x_ne_usdt rest (hbase.mp h).2

/-- Witness for C9: with the user-supplied tokenOut literally `"usdt"`
(passed through unchanged by `toAddress`) and the WETH address as the
in-token, the 0.5% bound fires. -/
theorem calculateSlippage_stable_branch_spec_witness :
    calculateSlippage WETH_ADDRESS "usdt" = 1 / 200 :=
  (calculateSlippage_stable_branch_spec WETH_ADDRESS "usdt" "usdt" (by decide)).1.mpr
    ⟨rfl, by decide⟩

/-- C1 (code bug): the source computes
`amountOut.mul(100 - slippage * 100).div(100)`.  At the configured 0.5%
bound the multiplier is the non-integer 99.5, so ethers `BigNumber.from`
throws an underflow fault instead of producing
`1000000 * (100 - 0.5) / 100 = 995000`; at the 1% and 3% bounds the
truncating integer formula of the claim holds. -/
theorem amountOutMinimum_underflow_bug :
    amountOutMinimum 1000000 (calculateSlippage WETH_ADDRESS "usdt") = .error "underflow"
    ∧ amountOutMinimum 1000000 (1 / 200) = .error "underflow"
    ∧ amountOutMinimum 1000000 (3 / 100) = .ok 970000
    ∧ amountOutMinimum 1000000 (1 / 100) = .ok 990000 := by
  have hs : calculateSlippage WETH_ADDRESS "usdt" = 1 / 200 := by
    unfold calculateSlippage
    rw [if_pos ⟨rfl, by decide⟩]
    norm_num
  refine ⟨?_, ?_, ?_, ?_⟩
  · rw [hs]
    unfold amountOutMinimum
    rw [if_neg (by norm_num)]
  · unfold amountOutMinimum
    rw [if_neg (by norm_num)]
  · have hnum : ((100 : ℚ) - 3 / 100 * 100).num = 97 := by norm_num
    unfold amountOutMinimum
    rw [if_pos (by norm_num), hnum]
    decide
  · have hnum : ((100 : ℚ) - 1 / 100 * 100).num = 99 := by norm_num
    unfold amountOutMinimum
    rw [if_pos (by norm_num), hnum]
    decide

/-- C6: `toAddress` maps every string that lowercases to the native alias
`"eth"` to the fixed WETH address, passes every other non-empty string
through unchanged, and rejects a null or empty input with the
invalid-token error. -/
theorem toAddress_resolve_spec (s : String) :
    (jsToLower s = "eth" → toAddress (some s) = .ok WETH_ADDRESS)
    ∧ (s ≠ "" → jsToLower s ≠ "eth" → toAddress (some s) = .ok s)
    ∧ toAddress none = .error "Invalid token string"
    ∧ toAddress (some "") = .error "Invalid token string" := by
  refine ⟨?_, ?_, rfl, rfl⟩
  · intro h
    have hne : s ≠ "" := by
      rintro rfl
      exact absurd h (by decide)
    rw [toAddress, if_neg hne, if_pos h]
  · intro hne h
    rw [toAddress, if_neg hne, if_neg h]

/-- Witness for C6: the mixed-case alias resolves to the WETH address and
an address-form string passes through unchanged. -/
theorem toAddress_resolve_spec_witness :
    toAddress (some "ETH") = .ok WETH_ADDRESS ∧ toAddress (some "0xAbC") = .ok "0xAbC" :=
  ⟨(toAddress_resolve_spec "ETH").1 (by decide),
    (toAddress_resolve_spec "0xAbC").2.1 (by decide) (by decide)⟩

/-- C7: `parseAmountIn` converts the amount string with the token's decimal
precision: the fixed constant 18 with no on-chain call when the token
resolves to the WETH address, and the precision from the token contract's
`decimals()` call otherwise; `"1"` for the native alias yields `10 ^ 18`,
`"0.5"` for a 6-decimal token yields `500000`, and a missing or empty
amount fails with the missing-amount error before any call. -/
theorem parseAmountIn_spec :
    (∀ (amt tok a : String) (ch : Chain), amt ≠ "" → toAddress (some tok) = .ok a →
        jsToLower a = jsToLower WETH_ADDRESS →
        parseAmountIn (some amt) tok ch = ([], parseFixed amt 18))
    ∧ (∀ (amt tok a : String) (ch : Chain) (d : Nat), amt ≠ "" →
        toAddress (some tok) = .ok a →
        jsToLower a ≠ jsToLower WETH_ADDRESS → ch.decimals a = .ok d →
        parseAmountIn (some amt) tok ch = ([NetCall.decimalsCall a], parseFixed amt d))
    ∧ (∀ (tok : String) (ch : Chain), jsToLower tok = "eth" →
        parseAmountIn (some "1") tok ch = ([], .ok (10 ^ 18)))
    ∧ (∀ (tok a : String) (ch : Chain), toAddress (some tok) = .ok a →
        jsToLower a ≠ jsToLower WETH_ADDRESS → ch.decimals a = .ok 6 →
        parseAmountIn (some "0.5") tok ch = ([NetCall.decimalsCall a], .ok 500000))
    ∧ (∀ (tok : String) (ch : Chain),
        parseAmountIn none tok ch = ([], .error "Missing amountIn")
        ∧ parseAmountIn (some "") tok ch = ([], .error "Missing amountIn")) := by
  have hweth : ∀ (amt tok a : String) (ch : Chain), amt ≠ "" →
      toAddress (some tok) = .ok a → jsToLower a = jsToLower WETH_ADDRESS →
      parseAmountIn (some amt) tok ch = ([], parseFixed amt 18) := by
    intro amt tok a ch hamt htok ha
    simp [parseAmountIn, getTokenDecimals, htok, ha, hamt]
  have hother : ∀ (amt tok a : String) (ch : Chain) (d : Nat), amt ≠ "" →
      toAddress (some tok) = .ok a → jsToLower a ≠ jsToLower WETH_ADDRESS →
      ch.decimals a = .ok d →
      parseAmountIn (some amt) tok ch = ([NetCall.decimalsCall a], parseFixed amt d) := by
    intro amt tok a ch d hamt htok ha hd
    simp [parseAmountIn, getTokenDecimals, htok, ha, hamt, hd]
  refine ⟨hweth, hother, ?_, ?_, ?_⟩
  · intro tok ch htok
    have hne : tok ≠ "" := by
      rintro rfl
      exact absurd htok (by decide)
    have hres : toAddress (some tok) = .ok WETH_ADDRESS := by
      rw [toAddress, if_neg hne, if_pos htok]
    rw [hweth "1" tok WETH_ADDRESS ch (by decide) hres rfl]
    rfl
  · intro tok a ch htok ha hd
    rw [hother "0.5" tok a ch 6 (by decide) htok ha hd]
    rfl
  · intro tok ch
    exact ⟨rfl, rfl⟩

lemma parseAmountIn_trace_shape (a : Option String) (tok : String) (ch : Chain) :
    (parseAmountIn a tok ch).1 = []
    ∨ ∃ t, (parseAmountIn a tok ch).1 = [NetCall.decimalsCall t] := by
  cases a with
  | none => exact Or.inl rfl
  | some s =>
    by_cases hs : s = ""
    · subst hs; exact Or.inl rfl
    · cases htok : toAddress (some tok) with
      | error e => simp [parseAmountIn, hs, htok]
      | ok addr =>
        by_cases hw : jsToLower addr = jsToLower WETH_ADDRESS
        · left
          simp [parseAmountIn, getTokenDecimals, hs, htok, hw]
        · right
          refine ⟨addr, ?_⟩
          simp only [parseAmountIn, getTokenDecimals, hs, htok, hw]
          cases ch.decimals addr <;> simp

/-- C5: when the signer's balance of the resolved input token is below the
normalized amount the swap pipeline answers with the insufficient-balance
failure, and the only network calls it has issued are the decimal lookup
and the balance read — no allowance read, approval, quote or submission is
performed. -/
theorem swap_insufficient_balance_guard
    (k amt tIn tOut aIn aOut w : String) (wei bal : Nat) (tr : List NetCall) (ch : Chain)
    (hk : k ≠ "") (hamt : amt ≠ "") (hti : tIn ≠ "") (hto : tOut ≠ "")
    (hw : ch.walletAddr k = .ok w)
    (hin : toAddress (some tIn) = .ok aIn)
    (hout : toAddress (some tOut) = .ok aOut)
    (hparse : parseAmountIn (some amt) tIn ch = (tr, .ok wei))
    (hbal : ch.balanceOf aIn w = .ok bal)
    (hlt : bal < wei) :
    swapHandler ⟨some k, some amt, some tIn, some tOut⟩ ch
      = (tr ++ [NetCall.balanceCall aIn w], 400, .err "Insufficient token balance.")
    ∧ ∀ c ∈ (swapHandler ⟨some k, some amt, some tIn, some tOut⟩ ch).1,
        (∃ t, c = NetCall.decimalsCall t) ∨ ∃ t o, c = NetCall.balanceCall t o := by
  have h1 : jsFalsy (some k) = false := by simp [jsFalsy, hk]
  have h2 : jsFalsy (some amt) = false := by simp [jsFalsy, hamt]
  have h3 : jsFalsy (some tIn) = false := by simp [jsFalsy, hti]
  have h4 : jsFalsy (some tOut) = false := by simp [jsFalsy, hto]
  have hmain : swapHandler ⟨some k, some amt, some tIn, some tOut⟩ ch
      = (tr ++ [NetCall.balanceCall aIn w], 400, .err "Insufficient token balance.") := by
    simp [swapHandler, h1, h2, h3, h4, hw, hin, hout, hparse, hbal, hlt]
  refine ⟨hmain, ?_⟩
  rw [hmain]
  intro c hc
  have htr : tr = [] ∨ ∃ t, tr = [NetCall.decimalsCall t] := by
    have hshape := parseAmountIn_trace_shape (some amt) tIn ch
    rw [hparse] at hshape
    simpa using hshape
  simp only [List.mem_append, List.mem_singleton] at hc
  rcases hc with hc | rfl
  · rcases htr with rfl | ⟨t, rfl⟩
    · exact absurd hc (by simp)
    · exact Or.inl ⟨t, by simpa using hc⟩
  · exact Or.inr ⟨aIn, w, rfl⟩

/-- Chain with balance 0 everywhere and every later step unreachable, for
the C5 witness and the C4 counterexample. -/
def brokeChain : Chain where
  walletAddr := fun _ => .ok "0xME"
  decimals := fun _ => .ok 6
  balanceOf := fun _ _ => .ok 0
  allowance := fun _ _ _ => .error "unreachable"
  approve := fun _ _ => .error "unreachable"
  quote := fun _ _ _ _ _ => none
  submit := fun _ => .error "unreachable"
  now := 0

/-- Witness for C5: a swap of 1 native-alias unit by a signer with balance
0 is answered 400 after exactly one balance read. -/
theorem swap_insufficient_balance_guard_witness :
    swapHandler ⟨some "0xKEY", some "1", some "eth", some "0xOUT"⟩ brokeChain
      = ([NetCall.balanceCall WETH_ADDRESS "0xME"], 400, .err "Insufficient token balance.") :=
  (swap_insufficient_balance_guard "0xKEY" "1" "eth" "0xOUT" WETH_ADDRESS "0xOUT" "0xME"
    (10 ^ 18) 0 [] brokeChain (by decide) (by decide) (by decide) (by decide)
    rfl (by decide) (by decide) (by decide) rfl (by decide)).1

lemma toAddress_eth_literal : toAddress (some "eth") = .ok WETH_ADDRESS := rfl

lemma toAddress_0xOUT : toAddress (some "0xOUT") = .ok "0xOUT" := rfl

lemma parseAmountIn_one_eth (ch : Chain) :
    parseAmountIn (some "1") "eth" ch = ([], .ok (10 ^ 18)) := rfl

lemma amountOutMinimum_weth_pair (n : Nat) :
    amountOutMinimum n (calculateSlippage WETH_ADDRESS "0xOUT")
      = .ok (Int.tdiv ((n : Int) * 99) 100) := by
  have hs : calculateSlippage WETH_ADDRESS "0xOUT" = 1 / 100 := by
    unfold calculateSlippage
    rw [if_neg (by rintro ⟨-, h⟩; exact absurd h (by decide)), if_pos (Or.inl rfl)]
    norm_num [min_def]
  have hnum : ((100 : ℚ) - 1 / 100 * 100).num = 99 := by norm_num
  rw [hs]
  unfold amountOutMinimum
  rw [if_pos (by norm_num), hnum]

/-- C4 counterexample: a swap request whose signer has balance 0 (an
insufficient-balance failure, neither an input nor a credential problem)
is answered with status 400, not the 500 the claim demands for every
failure other than input/credential problems. -/
theorem swap_insufficient_balance_status_counterexample :
    (swapHandler ⟨some "0xKEY", some "1", some "eth", some "0xOUT"⟩ brokeChain).2.1 = 400
    ∧ (400 : Nat) ≠ 500 :=
  ⟨by decide, by decide⟩

/-- Fixed swap request for the C4 status-mapping scenarios: swap `"1"` of
the native alias against the address-form token `"0xOUT"`. -/
def exSwapReq : SwapReq := ⟨some "0xKEY", some "1", some "eth", some "0xOUT"⟩

/-- Chain family for the C4 status-mapping scenarios: the signer balance,
allowance, approval outcome, per-tier quote oracle and submission outcome
vary; everything else is fixed. -/
def swapChain (bal allow : Nat) (apr : Except String Unit) (q : Nat → Option Nat)
    (sub : Except String String) : Chain where
  walletAddr := fun _ => .ok "0xME"
  decimals := fun _ => .ok 18
  balanceOf := fun _ _ => .ok bal
  allowance := fun _ _ _ => .ok allow
  approve := fun _ _ => apr
  quote := fun _ _ fee _ _ => q fee
  submit := fun _ => sub
  now := 0

/-- C4 (amended): a swap request missing the signer credential is rejected
401 — a client-error status distinct from the 400 used for missing body
fields — before any network call; missing body fields are rejected 400;
an insufficient balance is also answered 400 (not 500); and the remaining
pipeline failures — no liquidity at any tier, a failed approval
transaction, a failed submission — are answered 500. -/
theorem swap_http_status_mapping :
    (∀ (req : SwapReq) (ch : Chain), jsFalsy req.authorization = true →
        swapHandler req ch = ([], 401, .err "Private key required in Authorization header"))
    ∧ (∀ (req : SwapReq) (ch : Chain), jsFalsy req.authorization = false →
        (jsFalsy req.amountIn || jsFalsy req.tokenIn || jsFalsy req.tokenOut) = true →
        swapHandler req ch = ([], 400, .err "Missing required parameters in request body"))
    ∧ (∀ bal apr q sub, bal < 10 ^ 18 →
        (swapHandler exSwapReq (swapChain bal 0 apr q sub)).2
          = (400, .err "Insufficient token balance."))
    ∧ (∀ bal allow sub, 10 ^ 18 ≤ bal → 10 ^ 18 ≤ allow →
        (swapHandler exSwapReq (swapChain bal allow (.ok ()) (fun _ => none) sub)).2
          = (500, .err "No valid liquidity pool found."))
    ∧ (∀ bal e q sub, 10 ^ 18 ≤ bal →
        (swapHandler exSwapReq (swapChain bal 0 (.error e) q sub)).2 = (500, .err e))
    ∧ (∀ bal allow e, 10 ^ 18 ≤ bal → 10 ^ 18 ≤ allow →
        (swapHandler exSwapReq
            (swapChain bal allow (.ok ())
              (fun f => if f = 500 then some 1000000 else none) (.error e))).2
          = (500, .err e)) := by
  have hA : jsFalsy (some "0xKEY") = false := rfl
  have hB : jsFalsy (some "1") = false := rfl
  have hC : jsFalsy (some "eth") = false := rfl
  have hD : jsFalsy (some "0xOUT") = false := rfl
  refine ⟨?_, ?_, ?_, ?_, ?_, ?_⟩
  · intro req ch h
    simp [swapHandler, h]
  · intro req ch h hields
    simp [swapHandler, h, hields]
  · intro bal apr q sub hlt
    have hlt' : bal < 1000000000000000000 := by norm_num at hlt; exact hlt
    simp [swapHandler, exSwapReq, swapChain, hA, hB, hC, hD,
      toAddress_eth_literal, toAddress_0xOUT, parseAmountIn_one_eth, hlt']
  · intro bal allow sub hbal hallow
    have h1 : ¬ bal < 1000000000000000000 := by
      norm_num at hbal; exact Nat.not_lt.mpr hbal
    have h2 : ¬ allow < 1000000000000000000 := by
      norm_num at hallow; exact Nat.not_lt.mpr hallow
    simp [swapHandler, exSwapReq, swapChain, hA, hB, hC, hD,
      toAddress_eth_literal, toAddress_0xOUT, parseAmountIn_one_eth, h1, h2,
      swapQuotePhase, getBestQuote, getBestQuoteAux, feeTiers]
  · intro bal e q sub hbal
    have h1 : ¬ bal < 1000000000000000000 := by
      norm_num at hbal; exact Nat.not_lt.mpr hbal
    simp [swapHandler, exSwapReq, swapChain, hA, hB, hC, hD,
      toAddress_eth_literal, toAddress_0xOUT, parseAmountIn_one_eth, h1]
  · intro bal allow e hbal hallow
    have h1 : ¬ bal < 1000000000000000000 := by
      norm_num at hbal; exact Nat.not_lt.mpr hbal
    have h2 : ¬ allow < 1000000000000000000 := by
      norm_num at hallow; exact Nat.not_lt.mpr hallow
    simp [swapHandler, exSwapReq, swapChain, hA, hB, hC, hD,
      toAddress_eth_literal, toAddress_0xOUT, parseAmountIn_one_eth, h1, h2,
      swapQuotePhase, getBestQuote, getBestQuoteAux, feeTiers,
      amountOutMinimum_weth_pair]

/-- Witness for C4: with balance 0 the swap request is answered 400 with
the insufficient-balance message. -/
theorem swap_http_status_mapping_witness :
    (swapHandler exSwapReq (swapChain 0 0 (.ok ()) (fun _ => none) (.error "x"))).2
      = (400, .err "Insufficient token balance.") :=
  swap_http_status_mapping.2.2.1 0 (.ok ()) (fun _ => none) (.error "x") (by decide)

/-- Chain whose every ERC-20 `decimals()` call answers 6, for the C7
witness. -/
def sixDecimalsChain : Chain where
  walletAddr := fun _ => .ok "0xME"
  decimals := fun _ => .ok 6
  balanceOf := fun _ _ => .ok 0
  allowance := fun _ _ _ => .ok 0
  approve := fun _ _ => .ok ()
  quote := fun _ _ _ _ _ => none
  submit := fun _ => .error "no submit"
  now := 0

/-- C8 counterexample: the end-to-end quote scenario of the claim — amount
`"10"` of the native alias against an 8-decimal token whose oracle answers
fee 3000 with raw output 5000000000 — responds with the formatted amount
`"50.0"`, not the `"50"` the claim states (ethers `formatUnits` keeps at
least one fractional digit). -/
theorem quote_formatted_output_counterexample :
    (quoteHandler ⟨some "10", some "eth", some "0xTOKEN"⟩ quoteScenarioChain).2
      = (200, Resp.quote 3000 "50.0" "5000000000")
    ∧ "50.0" ≠ "50" :=
  ⟨by decide, by decide⟩

/-- C8 (amended): on success the quote handler answers 200 with the
selected fee tier, the raw output amount rendered as a decimal integer
string, and the output amount formatted with the output token's decimal
precision by the ethers formatting rule, which always keeps at least one
fractional digit — so the scenario of the claim yields `"50.0"`, not
`"50"`. -/
theorem quote_success_response (amt tIn tOut aIn aOut : String) (ch : Chain)
    (wei fee amountOut outDecimals : Nat) (tr tr2 : List NetCall) (fees : List Nat)
    (hamt : amt ≠ "") (hti : tIn ≠ "") (hto : tOut ≠ "")
    (hin : toAddress (some tIn) = .ok aIn) (hout : toAddress (some tOut) = .ok aOut)
    (hparse : parseAmountIn (some amt) tIn ch = (tr, .ok wei))
    (hq : getBestQuote (fun f => ch.quote aIn aOut f wei 0) = (fees, .ok (fee, amountOut)))
    (hdec : getTokenDecimals aOut ch = (tr2, .ok outDecimals)) :
    quoteHandler ⟨some amt, some tIn, some tOut⟩ ch
      = (tr ++ fees.map (fun f => NetCall.quoteCall aIn aOut f wei) ++ tr2, 200,
          .quote fee (formatUnits amountOut outDecimals) (toString amountOut)) := by
  have h2 : jsFalsy (some amt) = false := by simp [jsFalsy, hamt]
  have h3 : jsFalsy (some tIn) = false := by simp [jsFalsy, hti]
  have h4 : jsFalsy (some tOut) = false := by simp [jsFalsy, hto]
  simp [quoteHandler, h2, h3, h4, hin, hout, hparse, hq, hdec]

/-- Witness for C8: the scenario chain instantiates the amended success
shape, with `formatUnits 5000000000 8 = "50.0"`. -/
theorem quote_success_response_witness :
    quoteHandler ⟨some "10", some "eth", some "0xTOKEN"⟩ quoteScenarioChain
      = ([NetCall.quoteCall WETH_ADDRESS "0xTOKEN" 500 (10 ^ 19),
          NetCall.quoteCall WETH_ADDRESS "0xTOKEN" 3000 (10 ^ 19),
          NetCall.decimalsCall "0xTOKEN"], 200,
          .quote 3000 (formatUnits 5000000000 8) (toString 5000000000))
    ∧ formatUnits 5000000000 8 = "50.0" := by
  refine ⟨?_, by decide⟩
  have h := quote_success_response "10" "eth" "0xTOKEN" WETH_ADDRESS "0xTOKEN"
    quoteScenarioChain (10 ^ 19) 3000 5000000000 8 [] [NetCall.decimalsCall "0xTOKEN"]
    [500, 3000] (by decide) (by decide) (by decide) rfl rfl (by decide) (by decide) (by decide)
  simpa using h

/-- Witness for C7: `"1"` of the native alias normalizes to `10 ^ 18` with
no on-chain call, and `"0.5"` of a 6-decimal token normalizes to `500000`
after one `decimals()` call. -/
theorem parseAmountIn_spec_witness :
    parseAmountIn (some "1") "eth" sixDecimalsChain = ([], .ok (10 ^ 18))
    ∧ parseAmountIn (some "0.5") "0xToken" sixDecimalsChain
        = ([NetCall.decimalsCall "0xToken"], .ok 500000) :=
  ⟨parseAmountIn_spec.2.2.1 "eth" sixDecimalsChain (by decide),
    parseAmountIn_spec.2.2.2.1 "0xToken" "0xToken" sixDecimalsChain (by decide) (by decide) rfl⟩
